import Mathlib

/-!
Verification of the codex_douyin repository: a shallow embedding of the
input-to-product resolver (douyin/product_parser.py), the asset downloader
(media/downloader.py) and the image processing pipeline
(image_processing/pipeline.py), together with theorems settling the spec
claims about them.  Text is modelled as `List Char`; machine integers are
`Nat`/`Int` with explicit `% 2 ^ 32` where 32-bit overflow matters; Python
floats that feed dimension arithmetic are modelled as `Rat` (the witnesses
use exactly representable dyadic values); fallible code returns `Except`.
-/

namespace CodexDouyin

/-! ## Python string primitives -/

/-- The whitespace characters stripped by Python `str.strip()` and matched
by the regex class backslash-s (ASCII range; the claims only exercise ASCII). -/
def wsChars : List Char := [' ', '\t', '\n', '\r', Char.ofNat 11, Char.ofNat 12]

/-- Membership test of a character in a character set, as a Bool. -/
def memB (l : List Char) (c : Char) : Bool := decide (c ∈ l)

def pyWhitespace : Char → Bool := memB wsChars

/-- Python `lstrip` with an explicit predicate. -/
def lstripP (p : Char → Bool) (l : List Char) : List Char := l.dropWhile p

/-- Python `rstrip` with an explicit predicate. -/
def rstripP (p : Char → Bool) (l : List Char) : List Char :=
  (l.reverse.dropWhile p).reverse

/-- Python two-sided strip with an explicit predicate. -/
def stripP (p : Char → Bool) (l : List Char) : List Char := rstripP p (lstripP p l)

/-- Python `str.strip()` (no arguments: strips whitespace). -/
def pyStrip (l : List Char) : List Char := stripP pyWhitespace l

/-- Python `str.strip(chars)`. -/
def stripChars (s : List Char) (l : List Char) : List Char := stripP (memB s) l

/-- Python `str.rstrip(chars)`. -/
def rstripChars (s : List Char) (l : List Char) : List Char := rstripP (memB s) l

def isAsciiDigit (c : Char) : Bool := decide ('0' ≤ c ∧ c ≤ '9')

/-- Python `str.isdigit()` restricted to ASCII digits: non-empty and all digits. -/
def pyIsDigit (l : List Char) : Bool := decide (l ≠ []) && l.all isAsciiDigit

/-! ## Resolution Enhancer (image_processing/pipeline.py, ResolutionEnhancer.enhance)

`enhance` returns the input unchanged when `upscale_factor <= 1.0`; otherwise
each target dimension is `min(int(dim * factor), max_size)`.  Python `int()`
on a non-negative float truncates, i.e. takes the floor. -/

def enhanceDims (w h : Nat) (factor : Rat) (maxSize : Nat) : Nat × Nat :=
  if factor ≤ 1 then (w, h)
  else (min (Int.toNat ⌊(w : Rat) * factor⌋) maxSize,
        min (Int.toNat ⌊(h : Rat) * factor⌋) maxSize)

/-- Python `round()` (round half to even), used to state the spec claim that
the enhancer rounds; the code truncates instead. -/
def pyRound (q : Rat) : Int :=
  let f : Int := ⌊q⌋
  let r : Rat := q - (f : Rat)
  if r < 1/2 then f
  else if (1 : Rat)/2 < r then f + 1
  else if f % 2 = 0 then f else f + 1

/-! ## Image Acquirer (media/downloader.py, ImageDownloader.download)

The download is modelled against an oracle giving the outcome of each
would-be network attempt.  The simulation returns the result together with
the number of network requests performed and the number of cache files
written. -/

inductive DlErr (E : Type) : Type where
  | downloadFailed (last : E)
  | assertionFailure
deriving DecidableEq

/-- The retry loop body of `ImageDownloader.download`: `fuel` attempts remain,
`i` attempts were already made (so attempt `i` is next), `last` holds the last
captured error.  On success the decoded image is returned and, when a cache
directory is configured, one cache file is written; when the attempts are
exhausted the last error is wrapped (`assert last_error is not None` followed
by `raise RuntimeError(...) from last_error`). -/
def downloadLoop {E Img : Type} (outcomes : Nat → Except E Img)
    (cacheConfigured : Bool) :
    Nat → Nat → Option E → Except (DlErr E) Img × Nat × Nat
  | 0, i, last =>
    (match last with
     | some e => Except.error (DlErr.downloadFailed e)
     | none => Except.error DlErr.assertionFailure, i, 0)
  | fuel + 1, i, _last =>
    match outcomes i with
    | Except.ok img => (Except.ok img, i + 1, if cacheConfigured then 1 else 0)
    | Except.error e => downloadLoop outcomes cacheConfigured fuel (i + 1) (some e)

/-- `ImageDownloader.download`: a cache hit (cache configured and the computed
cache path exists) loads the cached file without network access; otherwise up
to `retries + 1` attempts are made. -/
def downloadSim {E Img : Type} (cachedImg : Img)
    (cacheConfigured cacheExists : Bool) (outcomes : Nat → Except E Img)
    (retries : Nat) : Except (DlErr E) Img × Nat × Nat :=
  if cacheConfigured && cacheExists then (Except.ok cachedImg, 0, 0)
  else downloadLoop outcomes cacheConfigured (retries + 1) 0 none

/-! ## Data model (models.py) -/

structure ProductAsset where
  id : String
  url : String
  width : Option Int := none
  height : Option Int := none
  format : Option String := none
deriving DecidableEq

/-! ## JSON payloads

A model of the Python values that `response.json()` can produce, together
with Python truthiness.  JSON numbers are modelled as integers (the payload
fields the code reads are ids and pixel dimensions).  Python `bool` is a
subclass of `int`, hence `isinstance(True, int)` holds; `intOpt` reflects
that. -/

inductive Json : Type where
  | null
  | str (s : String)
  | num (n : Int)
  | bool (b : Bool)
  | arr (xs : List Json)
  | obj (kvs : List (String × Json))

def pyTruthy : Json → Bool
  | Json.null => false
  | Json.str s => decide (s ≠ "")
  | Json.num n => decide (n ≠ 0)
  | Json.bool b => b
  | Json.arr [] => false
  | Json.arr (_ :: _) => true
  | Json.obj [] => false
  | Json.obj (_ :: _) => true

/-- `d.get(k)` on a dict, with Python `None` (absent key or non-dict) as
`Json.null`; in the code the result only flows into truthiness tests, so
conflating an explicit `null` value with an absent key is exact. -/
def jGet (j : Json) (k : String) : Json :=
  match j with
  | Json.obj kvs =>
    match kvs.find? (fun p => p.1 == k) with
    | some p => p.2
    | none => Json.null
  | _ => Json.null

/-- `k in d` on a dict. -/
def jHas (j : Json) (k : String) : Bool :=
  match j with
  | Json.obj kvs => kvs.any (fun p => p.1 == k)
  | _ => false

/-- Python `a or b`: `a` when truthy, else `b`. -/
def pyOr (a b : Json) : Json := if pyTruthy a then a else b

/-- Python `str(...)` on the payload values that can reach `str(asset_id or
index)`; `arr`/`obj` values (whose Python `str` is a container repr) are
outside the payload shapes the claims model. -/
def pyStrOf : Json → String
  | Json.null => "None"
  | Json.str s => s
  | Json.num n => toString n
  | Json.bool b => if b then "True" else "False"
  | Json.arr _ => "[...]"
  | Json.obj _ => "{...}"

/-- `w if isinstance(w, int) else None`; Python `bool` is an `int`. -/
def intOpt : Json → Option Int
  | Json.num n => some n
  | Json.bool b => some (if b then 1 else 0)
  | _ => none

/-- `f if isinstance(f, str) else None`. -/
def strOpt : Json → Option String
  | Json.str s => some s
  | _ => none

/-! ## Asset extraction (product_parser.py, DouyinProductParser._extract_images) -/

/-- The candidate image lists gathered by `_extract_images`: note that each of
the `product` and `data` groups contributes a single `or`-selected value, not
the concatenation of both of its keys. -/
def candidateLists (p : Json) : List Json :=
  (match p with
   | Json.obj _ =>
     (if jHas p "product" then
        match jGet p "product" with
        | Json.obj kvs => [pyOr (jGet (Json.obj kvs) "image") (jGet (Json.obj kvs) "images")]
        | _ => []
      else []) ++
     (if jHas p "data" then
        match jGet p "data" with
        | Json.obj kvs => [pyOr (jGet (Json.obj kvs) "images") (jGet (Json.obj kvs) "image_list")]
        | _ => []
      else []) ++
     (if jHas p "image_list" then [jGet p "image_list"] else [])
   | _ => [])

/-- The `url` chain for an object item: `item.get("url") or
item.get("origin_url") or item.get("image_url")`, then the first string entry
of `url_list` if the chain is falsy and the key is present.  Iterating a
string yields its one-character strings (Python semantics); values that are
not iterable would raise in the source and are outside the modelled payload
shapes (mapped to no URL here). -/
def firstStringEntry : Json → Option String
  | Json.arr xs => xs.findSome? (fun x => match x with | Json.str s => some s | _ => none)
  | Json.str s =>
    match s.data with
    | [] => none
    | c :: _ => some (String.mk [c])
  | Json.obj kvs => (kvs.head?).map (fun p => p.1)
  | _ => none

def itemUrlJson (item : Json) : Json :=
  let u := pyOr (jGet item "url") (pyOr (jGet item "origin_url") (jGet item "image_url"))
  if !pyTruthy u && jHas item "url_list" then
    let ul := jGet item "url_list"
    let ulist := if pyTruthy ul then ul else Json.arr []
    match firstStringEntry ulist with
    | some s => Json.str s
    | none => Json.null
  else u

/-- One element of a candidate list at position `index`: skips non-dict,
non-str items and items whose resolved URL is falsy; the asset id is
`str(item.get("id") or index)` for dicts and the positional index for bare
strings.  A truthy non-string URL value would be stored unconverted by the
source; such payloads are outside the modelled shapes (here `pyStrOf`). -/
def parseItem (index : Nat) (item : Json) : Option ProductAsset :=
  match item with
  | Json.str s => if s ≠ "" then some ⟨toString index, s, none, none, none⟩ else none
  | Json.obj _ =>
    let uj := itemUrlJson item
    if pyTruthy uj then
      let idj := jGet item "id"
      some ⟨(if pyTruthy idj then pyStrOf idj else toString index),
            pyStrOf uj,
            intOpt (jGet item "width"),
            intOpt (jGet item "height"),
            strOpt (pyOr (jGet item "format") (jGet item "file_type"))⟩
    else none
  | _ => none

/-- `enumerate(images)` over one candidate list; iterating a string yields its
characters as one-character strings (then each is a `str` item). -/
def listItems : Json → List Json
  | Json.arr xs => xs
  | Json.str s => s.data.map (fun c => Json.str (String.mk [c]))
  | Json.obj kvs => kvs.map (fun p => Json.str p.1)
  | _ => []

def extractFromList (items : List Json) : List ProductAsset :=
  (items.enum.map (fun p => parseItem p.1 p.2)).reduceOption

/-- `_extract_images`: concatenation over the candidate lists, falsy
candidates skipped (`if not images: continue`). -/
def extractImages (p : Json) : List ProductAsset :=
  ((candidateLists p).map
    (fun j => if pyTruthy j then extractFromList (listItems j) else [])).flatten

/-- The payload shape with all five recognized image-list keys present. -/
def mkPayload (prodImage prodImages dataImages dataImageList topImageList : Json) : Json :=
  Json.obj [("product", Json.obj [("image", prodImage), ("images", prodImages)]),
            ("data", Json.obj [("images", dataImages), ("image_list", dataImageList)]),
            ("image_list", topImageList)]

/-! ## Pipeline orchestrator (image_processing/pipeline.py,
ImageProcessingPipeline.process_assets / _store_image)

The collaborators (downloader, background remover, enhancer) are constructor
arguments of the pipeline in the source; they are parameters here, and the
observable work is recorded as an event trace in code order: for each asset
the loop pulls a download from the `bulk_download` generator, removes the
background, enhances, and only then `_store_image` checks `output_dir`. -/

inductive PipeEvent : Type where
  | download (a : ProductAsset)
  | removeBg (a : ProductAsset)
  | enhance (a : ProductAsset)
  | store (a : ProductAsset)
deriving DecidableEq

inductive PipeErr : Type where
  | outputNotConfigured
deriving DecidableEq

def processAssets {Img : Type} (dl : ProductAsset → Img) (rb : Img → Img)
    (en : Img → Img) (outputDir : Option String) :
    List ProductAsset → List PipeEvent × Except PipeErr (List (ProductAsset × String))
  | [] => ([], Except.ok [])
  | a :: rest =>
    let img := dl a
    let nobg := rb img
    let _enh := en nobg
    match outputDir with
    | none => ([PipeEvent.download a, PipeEvent.removeBg a, PipeEvent.enhance a],
               Except.error PipeErr.outputNotConfigured)
    | some d =>
      let path := d ++ "/" ++ a.id ++ ".png"
      let r := processAssets dl rb en (some d) rest
      ([PipeEvent.download a, PipeEvent.removeBg a, PipeEvent.enhance a,
        PipeEvent.store a] ++ r.1,
       match r.2 with
       | Except.ok ps => Except.ok ((a, path) :: ps)
       | Except.error e => Except.error e)

/-! ## Cookie handling (product_parser.py, DouyinProductParser.__init__,
_effective_cookies, _normalize_cookie, _build_headers,
_load_cookies_from_env) -/

/-- `_normalize_cookie`: strip, and a blank result becomes `None`. -/
def normalizeCookie (v : Option String) : Option String :=
  match v with
  | none => none
  | some s =>
    let n := pyStrip s.data
    if n = [] then none else some (String.mk n)

/-- Head test used by the dotenv scan for comment lines. -/
def headIs (c : Char) (l : List Char) : Bool :=
  match l with
  | [] => false
  | x :: _ => x == c

/-- Split at the first occurrence of `sep`, when present. -/
def splitOnceChar (sep : Char) : List Char → Option (List Char × List Char)
  | [] => none
  | c :: rest =>
    if c == sep then some ([], rest)
    else match splitOnceChar sep rest with
      | some p => some (c :: p.1, p.2)
      | none => none

def quoteDouble : List Char := ['"']
def quoteSingle : List Char := [Char.ofNat 39]

/-- The `.env` line scan of `_load_cookies_from_env`: skips blank and `#`
lines and lines without `=`; on the first line whose stripped key is
`DY_COOKIES`, returns the normalized unquoted value (possibly `None`) without
scanning further lines. -/
def scanEnvLines : List (List Char) → Option String
  | [] => none
  | l :: rest =>
    let st := pyStrip l
    if st = [] then scanEnvLines rest
    else if headIs '#' st then scanEnvLines rest
    else match splitOnceChar '=' st with
      | none => scanEnvLines rest
      | some kv =>
        if pyStrip kv.1 = "DY_COOKIES".data then
          normalizeCookie (some (String.mk
            (stripChars quoteSingle (stripChars quoteDouble (pyStrip kv.2)))))
        else scanEnvLines rest

/-- `_load_cookies_from_env`: the `DY_COOKIES` environment variable when its
normalization is non-empty, else the `.env` scan (`none` for the `.env` file
missing or unreadable). -/
def loadCookiesFromEnv (envVar : Option String) (dotenv : Option (List (List Char))) :
    Option String :=
  match normalizeCookie envVar with
  | some v => some v
  | none =>
    match dotenv with
    | none => none
    | some lines => scanEnvLines lines

/-- `__init__`: an explicitly passed cookie string (even a blank one) is
normalized and stored; the environment is consulted only when the constructor
argument is `None`. -/
def initialCookies (ctorArg : Option String) (envVar : Option String)
    (dotenv : Option (List (List Char))) : Option String :=
  match ctorArg with
  | some c => normalizeCookie (some c)
  | none => loadCookiesFromEnv envVar dotenv

/-- `_effective_cookies`: normalized call-level override, else the instance
value. -/
def effectiveCookies (instCookies : Option String) (override : Option String) :
    Option String :=
  match normalizeCookie override with
  | some v => some v
  | none => instCookies

/-- Dict update `headers[k] = v`. -/
def dictSet (m : List (String × String)) (k v : String) : List (String × String) :=
  if (m.lookup k).isSome then m.map (fun p => if p.1 = k then (k, v) else p)
  else m ++ [(k, v)]

/-- `_build_headers`: a fixed `User-Agent`, the extras, and a `Cookie` header
exactly when the effective cookie value is truthy. -/
def buildHeaders (userAgent : String) (extra : List (String × String))
    (instCookies override : Option String) : List (String × String) :=
  let hs := extra.foldl (fun m p => dictSet m p.1 p.2) [("User-Agent", userAgent)]
  match effectiveCookies instCookies override with
  | some c => if c ≠ "" then dictSet hs "Cookie" c else hs
  | none => hs

/-! ## Direct numeric input (product_parser.py,
DouyinProductParser.fetch_product_assets)

The resolver front end: a stripped all-digit input is accepted verbatim as
the product id and the resolution chain (normalization, redirect resolution,
id extraction, with its network requests) is not invoked; the chain is a
parameter, and the Bool records whether it was invoked. -/

structure ParsedProductInput where
  original : List Char
  normalizedUrl : List Char
  finalUrl : List Char
  productId : List Char
deriving DecidableEq

inductive PErr : Type where
  | invalidInput (msg : String)
  | productIdNotFound (url : List Char) (snippet : List Char)
  | httpError
deriving DecidableEq

def msgNonEmpty : String := "Input must be a non-empty string containing a Douyin link"
def msgNoLink : String := "Unable to locate a http/https link within the provided input"
def msgNormalize : String := "Unable to normalize extracted URL from input"

def fetchFront (chain : List Char → Except PErr ParsedProductInput)
    (input : List Char) : Except PErr (ParsedProductInput × Bool) :=
  if pyStrip input = [] then Except.error (PErr.invalidInput msgNonEmpty)
  else
    let normalized := pyStrip input
    if pyIsDigit normalized then
      Except.ok (⟨normalized, [], [], normalized⟩, false)
    else
      match chain normalized with
      | Except.ok parsed => Except.ok (parsed, true)
      | Except.error e => Except.error e

/-! ## Link normalization (product_parser.py, _URL_PATTERN, _normalize_url,
parse_input_to_product)

The regex `https?://[^\s]+` with `re.IGNORECASE`: the leftmost position whose
text starts (case-insensitively) with `https://` or `http://` and has at
least one further non-whitespace character; the match is the maximal
non-whitespace run from that position. -/

def httpsPrefix : List Char := "https://".data
def httpPrefix : List Char := "http://".data

def notWs (c : Char) : Bool := !pyWhitespace c

/-- Is there a non-whitespace character at offset `n`? -/
def hasNonWsAt (l : List Char) (n : Nat) : Bool :=
  match (l.drop n).head? with
  | some c => notWs c
  | none => false

def isHttpMatchAt (l : List Char) : Bool :=
  (httpsPrefix.isPrefixOf (l.map Char.toLower) && hasNonWsAt l 8) ||
  (httpPrefix.isPrefixOf (l.map Char.toLower) && hasNonWsAt l 7)

/-- `_URL_PATTERN.search`: the leftmost full match. -/
def findUrl : List Char → Option (List Char)
  | [] => none
  | c :: rest =>
    if isHttpMatchAt (c :: rest) then some ((c :: rest).takeWhile notWs)
    else findUrl rest

/-- The quote characters of `url.strip("\x22\x27“”‘’")`. -/
def quoteChars : List Char := ['"', Char.ofNat 39, '“', '”', '‘', '’']

/-- `_TRAILING_PUNCTUATION`: full-width CJK punctuation followed by the ASCII
set (the final ASCII characters are the double and single quote). -/
def trailingPunct : List Char :=
  "。！？；，：、》」】）”’".data ++
  ".,!?;:)]>".data ++ ['"', Char.ofNat 39]

/-- `_normalize_url`: strip whitespace, strip surrounding quotes, strip
trailing punctuation. -/
def normalizeUrl (l : List Char) : List Char :=
  rstripChars trailingPunct (stripChars quoteChars (pyStrip l))

/-- The validation prefix of `parse_input_to_product`: the two `InvalidInput`
failures, plus the (unreachable, as proved below) empty-normalization
failure. -/
def parseValidate (raw : List Char) : Except PErr (List Char) :=
  if pyStrip raw = [] then Except.error (PErr.invalidInput msgNonEmpty)
  else
    match findUrl raw with
    | none => Except.error (PErr.invalidInput msgNoLink)
    | some m =>
      let n := normalizeUrl m
      if n = [] then Except.error (PErr.invalidInput msgNormalize)
      else Except.ok n

/-! ## urlparse / parse_qs (product_parser.py,
_extract_product_id_from_query)

`urlsplit` takes the fragment after the first `#`, then the query after the
first `?` of the remainder; `parse_qs` splits the query on `&`, keeps only
`key=value` pieces with a non-empty value, unquotes `+` and `%XX` escapes,
and groups values by key in first-occurrence order. -/

def urlQuery (l : List Char) : List Char :=
  let beforeFrag := match splitOnceChar '#' l with
    | some p => p.1
    | none => l
  match splitOnceChar '?' beforeFrag with
  | some p => p.2
  | none => []

/-- Split on every occurrence of `sep`. -/
def splitAllChar (sep : Char) : List Char → List (List Char)
  | [] => [[]]
  | c :: rest =>
    if c == sep then [] :: splitAllChar sep rest
    else match splitAllChar sep rest with
      | [] => [[c]]
      | p :: ps => (c :: p) :: ps

def hexVal (c : Char) : Option Nat :=
  if '0' ≤ c ∧ c ≤ '9' then some (c.toNat - 48)
  else if 'a' ≤ c ∧ c ≤ 'f' then some (c.toNat - 87)
  else if 'A' ≤ c ∧ c ≤ 'F' then some (c.toNat - 55)
  else none

/-- `urllib.parse.unquote_plus` restricted to single-byte escapes: `+`
becomes a space, `%XX` with two hex digits becomes the character with that
code (multi-byte UTF-8 escape sequences decode to one character in Python
and to the individual bytes here; the claims only involve unescaped ASCII). -/
def unquotePlus : List Char → List Char
  | [] => []
  | '+' :: rest => ' ' :: unquotePlus rest
  | '%' :: a :: b :: rest =>
    match hexVal a, hexVal b with
    | some x, some y => Char.ofNat (16 * x + y) :: unquotePlus rest
    | _, _ => '%' :: unquotePlus (a :: b :: rest)
  | c :: rest => c :: unquotePlus rest

/-- Append a value under a key, preserving first-occurrence key order. -/
def qsInsert (acc : List (List Char × List (List Char))) (k : List Char)
    (v : List Char) : List (List Char × List (List Char)) :=
  match acc with
  | [] => [(k, [v])]
  | (k0, vs) :: rest =>
    if k0 = k then (k0, vs ++ [v]) :: rest
    else (k0, vs) :: qsInsert rest k v

def parseQsl (query : List Char) : List (List Char × List Char) :=
  (splitAllChar '&' query).foldr
    (fun piece acc =>
      if piece = [] then acc
      else match splitOnceChar '=' piece with
        | none => acc
        | some kv =>
          if kv.2 = [] then acc
          else (unquotePlus kv.1, unquotePlus kv.2) :: acc) []

def parseQs (query : List Char) : List (List Char × List (List Char)) :=
  (parseQsl query).foldl (fun acc p => qsInsert acc p.1 p.2) []

def queryKeys : List (List Char) :=
  ["product_id".data, "goods_id".data, "item_id".data, "id".data]

/-- `_extract_product_id_from_query`: for each fixed key in order, the first
query parameter whose lower-cased name equals it contributes its first
all-digit value. -/
def extractProductIdFromQuery (url : List Char) : Option (List Char) :=
  let qp := parseQs (urlQuery url)
  if qp = [] then none
  else queryKeys.findSome? (fun key =>
    qp.findSome? (fun p =>
      if p.1.map Char.toLower = key then
        p.2.findSome? (fun v => if pyIsDigit v then some v else none)
      else none))

/-! ## Path-pattern and markup extraction (product_parser.py,
_PRODUCT_ID_PATTERNS, _extract_product_id, _PRODUCT_ID_HTML_PATTERNS,
_extract_product_id_from_html) -/

/-- `re.search` of `<lit>(\d+)` with `re.IGNORECASE`: the capture at the
leftmost position where the lower-cased text starts with `lit` followed by at
least one ASCII digit; the capture is the maximal digit run. -/
def searchLitDigits (lit : List Char) : List Char → Option (List Char)
  | [] => none
  | c :: rest =>
    if lit.isPrefixOf ((c :: rest).map Char.toLower) then
      let ds := ((c :: rest).drop lit.length).takeWhile isAsciiDigit
      if ds = [] then searchLitDigits lit rest else some ds
    else searchLitDigits lit rest

def productIdPatterns : List (List Char) :=
  ["product/".data, "goods/".data, "item/".data,
   "product_id=".data, "goods_id=".data, "item_id=".data]

/-- `_extract_product_id`: the patterns are tried in order, each searched over
the whole URL. -/
def extractProductId (url : List Char) : Option (List Char) :=
  productIdPatterns.findSome? (fun lit => searchLitDigits lit url)

/-- Tokens of a markup pattern: a case-insensitive literal, `\s*`, or the
`(\d+)` capture. -/
inductive HtmlTok : Type where
  | lit (s : List Char)
  | wsStar
  | digs

/-- Match a token sequence at the current position, returning the capture.
`\s*` is maximal-munch (every following token starts with a non-whitespace
literal character, so no backtracking is needed, and likewise `(\d+)` is
always followed by a non-digit literal). -/
def runToks : List HtmlTok → List Char → Option (List Char) → Option (List Char)
  | [], _, acc => acc
  | HtmlTok.lit s :: rest, l, acc =>
    if s.isPrefixOf (l.map Char.toLower) then runToks rest (l.drop s.length) acc
    else none
  | HtmlTok.wsStar :: rest, l, acc => runToks rest (l.dropWhile pyWhitespace) acc
  | HtmlTok.digs :: rest, l, _acc =>
    let ds := l.takeWhile isAsciiDigit
    if ds = [] then none else runToks rest (l.drop ds.length) (some ds)

/-- Leftmost match of a token sequence. -/
def searchToks (toks : List HtmlTok) : List Char → Option (List Char)
  | [] => none
  | c :: rest =>
    match runToks toks (c :: rest) none with
    | some ds => some ds
    | none => searchToks toks rest

/-- `"product_id"\s*:\s*"(\d+)"` and friends. -/
def jsonKeyPattern (key : List Char) : List HtmlTok :=
  [HtmlTok.lit (['"'] ++ key ++ ['"']), HtmlTok.wsStar, HtmlTok.lit [':'],
   HtmlTok.wsStar, HtmlTok.lit ['"'], HtmlTok.digs, HtmlTok.lit ['"']]

def htmlPatterns : List (List HtmlTok) :=
  [jsonKeyPattern "product_id".data,
   jsonKeyPattern "productid".data,
   [HtmlTok.lit "data-product-id=\"".data, HtmlTok.digs, HtmlTok.lit ['"']],
   jsonKeyPattern "goods_id".data]

def extractProductIdFromHtml (html : List Char) : Option (List Char) :=
  htmlPatterns.findSome? (fun toks => searchToks toks html)

/-- `re.sub` of one-or-more whitespace with a single space, fueled by the
input length. -/
def collapseWsF : Nat → List Char → List Char
  | 0, _ => []
  | _, [] => []
  | fuel + 1, c :: rest =>
    if pyWhitespace c then ' ' :: collapseWsF fuel (rest.dropWhile pyWhitespace)
    else c :: collapseWsF fuel rest

/-- `_format_html_snippet`: first 300 characters, whitespace collapsed,
stripped. -/
def formatHtmlSnippet (html : List Char) : List Char :=
  pyStrip (collapseWsF (html.take 300).length (html.take 300))

/-- The result of the authenticated markup fetch: body text and the possibly
further-redirected URL. -/
structure FetchResult where
  html : List Char
  resolvedUrl : List Char

/-- `_determine_product_id`, with the network fetch as an oracle: query
match, then path-pattern match, then (only if both miss) the markup fetch
followed by a re-run of both on the new final URL and the markup search;
otherwise `ProductIdNotFound` with the diagnostic URL and snippet.  The
second component names the strategy (`query`, `url`, or `html`), the third is
the effective final URL. -/
def determineProductId (fetch : List Char → Except PErr FetchResult)
    (finalUrl : List Char) : Except PErr (List Char × String × List Char) :=
  match extractProductIdFromQuery finalUrl with
  | some pid => Except.ok (pid, "query", finalUrl)
  | none =>
  match extractProductId finalUrl with
  | some pid => Except.ok (pid, "url", finalUrl)
  | none =>
  match fetch finalUrl with
  | Except.error e => Except.error e
  | Except.ok fr =>
    let newUrl := if fr.resolvedUrl ≠ [] ∧ fr.resolvedUrl ≠ finalUrl
      then fr.resolvedUrl else finalUrl
    match extractProductIdFromQuery newUrl with
    | some pid => Except.ok (pid, "query", newUrl)
    | none =>
    match extractProductId newUrl with
    | some pid => Except.ok (pid, "url", newUrl)
    | none =>
    match extractProductIdFromHtml fr.html with
    | some pid => Except.ok (pid, "html", newUrl)
    | none => Except.error (PErr.productIdNotFound newUrl (formatHtmlSnippet fr.html))

/-! ## SHA-1 and the cache path (media/downloader.py,
ImageDownloader._resolve_cache_path)

`hashlib.sha1(asset.url.encode("utf-8"), usedforsecurity=False).hexdigest()`
is modelled bit-for-bit: UTF-8 encoding of the URL, then SHA-1 over the byte
list, with 32-bit words as `Nat` masked by `% 2 ^ 32`. -/

def mask32 : Nat := 4294967296

def utf8EncodeChar (c : Char) : List Nat :=
  let n := c.toNat
  if n < 128 then [n]
  else if n < 2048 then [192 + n / 64, 128 + n % 64]
  else if n < 65536 then [224 + n / 4096, 128 + (n / 64) % 64, 128 + n % 64]
  else [240 + n / 262144, 128 + (n / 4096) % 64, 128 + (n / 64) % 64, 128 + n % 64]

def utf8Encode (s : String) : List Nat :=
  (s.data.map utf8EncodeChar).flatten

def rotl32 (n x : Nat) : Nat :=
  ((x <<< n) % mask32) ||| (x >>> (32 - n))

/-- SHA-1 padding: a `0x80` byte, zeros to 56 mod 64, and the bit length as
eight big-endian bytes. -/
def sha1Pad (msg : List Nat) : List Nat :=
  let len := msg.length
  let zeros := (119 - len % 64) % 64
  let bitLen := 8 * len
  msg ++ [128] ++ List.replicate zeros 0 ++
    [(bitLen >>> 56) % 256, (bitLen >>> 48) % 256, (bitLen >>> 40) % 256,
     (bitLen >>> 32) % 256, (bitLen >>> 24) % 256, (bitLen >>> 16) % 256,
     (bitLen >>> 8) % 256, bitLen % 256]

/-- Group a list into chunks of `sz` elements, fueled by the list length. -/
def chunkF (sz : Nat) : Nat → List Nat → List (List Nat)
  | 0, _ => []
  | _, [] => []
  | fuel + 1, l => l.take sz :: chunkF sz fuel (l.drop sz)

/-- Four big-endian bytes to one 32-bit word. -/
def wordOfBytes (bs : List Nat) : Nat :=
  bs.foldl (fun acc b => acc * 256 + b) 0

/-- Extend 16 words to the 80-word schedule. -/
def sha1Extend (ws : List Nat) : List Nat :=
  (List.range 64).foldl
    (fun acc _ =>
      acc ++ [rotl32 1 ((acc.getD (acc.length - 3) 0) ^^^ (acc.getD (acc.length - 8) 0) ^^^
                        (acc.getD (acc.length - 14) 0) ^^^ (acc.getD (acc.length - 16) 0))])
    ws

def sha1F (i b c d : Nat) : Nat :=
  if i < 20 then (b &&& c) ||| ((b ^^^ 4294967295) &&& d)
  else if i < 40 then b ^^^ c ^^^ d
  else if i < 60 then (b &&& c) ||| (b &&& d) ||| (c &&& d)
  else b ^^^ c ^^^ d

def sha1K (i : Nat) : Nat :=
  if i < 20 then 1518500249
  else if i < 40 then 1859775393
  else if i < 60 then 2400959708
  else 3395469782

def sha1Round (ws : List Nat) (st : Nat × Nat × Nat × Nat × Nat) (i : Nat) :
    Nat × Nat × Nat × Nat × Nat :=
  let a := st.1
  let b := st.2.1
  let c := st.2.2.1
  let d := st.2.2.2.1
  let e := st.2.2.2.2
  let temp := (rotl32 5 a + sha1F i b c d + e + sha1K i + ws.getD i 0) % mask32
  (temp, a, rotl32 30 b, c, d)

def sha1Block (h : Nat × Nat × Nat × Nat × Nat) (block : List Nat) :
    Nat × Nat × Nat × Nat × Nat :=
  let ws := sha1Extend ((chunkF 4 block.length block).map wordOfBytes)
  let st := (List.range 80).foldl (sha1Round ws) h
  ((h.1 + st.1) % mask32, (h.2.1 + st.2.1) % mask32,
   (h.2.2.1 + st.2.2.1) % mask32, (h.2.2.2.1 + st.2.2.2.1) % mask32,
   (h.2.2.2.2 + st.2.2.2.2) % mask32)

def sha1Init : Nat × Nat × Nat × Nat × Nat :=
  (1732584193, 4023233417, 2562383102, 271733878, 3285377520)

def hexDigitChar (n : Nat) : Char :=
  if n < 10 then Char.ofNat (48 + n) else Char.ofNat (87 + n)

/-- Fixed-width lowercase hex, `k` digits. -/
def toHexFixed : Nat → Nat → List Char
  | 0, _ => []
  | k + 1, n => toHexFixed k (n / 16) ++ [hexDigitChar (n % 16)]

def sha1Hex (msg : List Nat) : String :=
  let padded := sha1Pad msg
  let h := ((chunkF 64 padded.length padded)).foldl sha1Block sha1Init
  String.mk (toHexFixed 8 h.1 ++ toHexFixed 8 h.2.1 ++ toHexFixed 8 h.2.2.1 ++
             toHexFixed 8 h.2.2.2.1 ++ toHexFixed 8 h.2.2.2.2)

def sha1HexOfString (s : String) : String := sha1Hex (utf8Encode s)

/-- `(asset.format or "png").lower().split("?")[0]`. -/
def extOf (format : Option String) : String :=
  let f := match format with
    | some f => if f ≠ "" then f else "png"
    | none => "png"
  String.mk ((f.data.map Char.toLower).takeWhile (fun c => c ≠ '?'))

/-- `_resolve_cache_path`: `None` without a cache directory, else
`cache_dir / f"{asset.id}_{digest}.{extension}"` where the digest hashes the
asset URL. -/
def resolveCachePath (cacheDir : Option String) (asset : ProductAsset) :
    Option String :=
  match cacheDir with
  | none => none
  | some d =>
    some (d ++ "/" ++ asset.id ++ "_" ++ sha1HexOfString asset.url ++ "." ++
          extOf asset.format)

/-- Substring containment, used to state that the two `InvalidInput` messages
are distinguishable by content. -/
def containsSeq (pat : List Char) : List Char → Bool
  | [] => pat.isEmpty
  | c :: rest => pat.isPrefixOf (c :: rest) || containsSeq pat rest

def containsSub (s pat : String) : Bool := containsSeq pat.data s.data

end CodexDouyin

namespace CodexDouyin

/-! ## Supporting lemmas for the downloader -/

theorem downloadLoop_requests_le {E Img : Type} (o : Nat → Except E Img)
    (cc : Bool) : ∀ (fuel i : Nat) (last : Option E),
    (downloadLoop o cc fuel i last).2.1 ≤ i + fuel := by
  intro fuel
  induction fuel with
  | zero =>
    intro i last
    simp [downloadLoop]
  | succ n ih =>
    intro i last
    unfold downloadLoop
    cases h : o i with
    | ok img => simp [h]
    | error e =>
      simp only [h]
      have := ih (i + 1) (some e)
      omega

theorem downloadLoop_fail {E Img : Type} (o : Nat → Except E Img) (cc : Bool) :
    ∀ (fuel i : Nat) (last : Option E) (d : DlErr E),
    (downloadLoop o cc fuel i last).1 = Except.error d →
    (downloadLoop o cc fuel i last).2.2 = 0 ∧
    (downloadLoop o cc fuel i last).2.1 = i + fuel ∧
    (∀ j, i ≤ j → j < i + fuel → ∃ e, o j = Except.error e) ∧
    (0 < fuel → ∃ e, o (i + fuel - 1) = Except.error e ∧ d = DlErr.downloadFailed e) := by
  intro fuel
  induction fuel with
  | zero =>
    intro i last d _
    refine ⟨rfl, ?_, ?_, ?_⟩
    · show i = i + 0
      omega
    · intro j h1 h2; omega
    · intro h; omega
  | succ n ih =>
    intro i last d hd
    unfold downloadLoop at hd ⊢
    cases h : o i with
    | ok img => simp [h] at hd
    | error e =>
      simp only [h] at hd ⊢
      obtain ⟨hw, hr, hall, hlast⟩ := ih (i + 1) (some e) d hd
      refine ⟨hw, by omega, ?_, ?_⟩
      · intro j hj1 hj2
        rcases Nat.eq_or_lt_of_le hj1 with rfl | hj
        · exact ⟨e, h⟩
        · exact hall j hj (by omega)
      · intro _
        cases n with
        | zero =>
          refine ⟨e, by simpa using h, ?_⟩
          simp [downloadLoop, h] at hd
          simp [hd]
        | succ m =>
          obtain ⟨e', he', hde⟩ := hlast (by omega)
          exact ⟨e', by convert he' using 2; omega, hde⟩
end CodexDouyin

namespace CodexDouyin

/-! ## C3: Resolution Enhancer dimensions -/

/-- C3 counterexample: the claim says that with factor > 1.0 each output
dimension equals round(original × factor); at a 3×3 image with factor 5/2 the
code truncates 7.5 to 7 while rounding gives 8. -/
theorem c3_round_counterexample :
    (1 : Rat) < 5 / 2 ∧
    enhanceDims 3 3 (5 / 2) 2048 = (7, 7) ∧
    Int.toNat (pyRound ((3 : Rat) * (5 / 2))) = 8 ∧
    (enhanceDims 3 3 (5 / 2) 2048).1 ≠ Int.toNat (pyRound ((3 : Rat) * (5 / 2))) := by
  have h1 : enhanceDims 3 3 (5 / 2) 2048 = (7, 7) := by
    simp only [enhanceDims]
    rw [if_neg (by norm_num)]
    norm_num
    decide
  have h2 : Int.toNat (pyRound ((3 : Rat) * (5 / 2))) = 8 := by
    simp only [pyRound]
    norm_num
    decide
  refine ⟨by norm_num, h1, h2, ?_⟩
  rw [h1, h2]
  norm_num

/-- C3 (amended): with factor ≤ 1.0 `enhance` returns the image with
unchanged dimensions; with factor > 1.0 each output dimension equals
⌊original × factor⌋ (Python `int()` truncation, not rounding), computed
independently per axis and capped at `max_size`; a dimension whose scaled
value would meet or exceed `max_size` equals `max_size` exactly. -/
theorem c3_enhance_dims (w h maxSize : Nat) (factor : Rat) :
    (factor ≤ 1 → enhanceDims w h factor maxSize = (w, h)) ∧
    (1 < factor →
      enhanceDims w h factor maxSize =
        (min (Int.toNat ⌊(w : Rat) * factor⌋) maxSize,
         min (Int.toNat ⌊(h : Rat) * factor⌋) maxSize) ∧
      (maxSize ≤ Int.toNat ⌊(w : Rat) * factor⌋ →
        (enhanceDims w h factor maxSize).1 = maxSize) ∧
      (maxSize ≤ Int.toNat ⌊(h : Rat) * factor⌋ →
        (enhanceDims w h factor maxSize).2 = maxSize)) := by
  constructor
  · intro hle
    simp [enhanceDims, hle]
  · intro hgt
    have hnle : ¬ factor ≤ 1 := not_le.mpr hgt
    refine ⟨by simp [enhanceDims, hnle], ?_, ?_⟩
    · intro hcap
      simp [enhanceDims, hnle, Nat.min_eq_right hcap]
    · intro hcap
      simp [enhanceDims, hnle, Nat.min_eq_right hcap]

/-- Witness for C3 (amended): concrete no-op, truncation, and cap cases. -/
theorem c3_enhance_dims_witness :
    enhanceDims 5 5 (1 / 2) 99 = (5, 5) ∧
    enhanceDims 3 3 (5 / 2) 2048 =
      (min (Int.toNat ⌊(3 : Rat) * (5 / 2)⌋) 2048,
       min (Int.toNat ⌊(3 : Rat) * (5 / 2)⌋) 2048) ∧
    (enhanceDims 1000 1000 (5 / 2) 2048).1 = 2048 :=
  ⟨(c3_enhance_dims 5 5 99 (1 / 2)).1 (by norm_num),
   ((c3_enhance_dims 3 3 2048 (5 / 2)).2 (by norm_num)).1,
   ((c3_enhance_dims 1000 1000 2048 (5 / 2)).2 (by norm_num)).2.1 (by norm_num)⟩

/-! ## C4: Image Acquirer caching and retry -/

/-- C4: a cache hit performs zero network requests; otherwise at most
`retries + 1` attempts are made; a failing result wraps the error of the last
attempt, occurs only after all `retries + 1` attempts failed, and writes no
cache file. -/
theorem c4_download_cache_retry (E Img : Type) (cached : Img) (cc ce : Bool)
    (o : Nat → Except E Img) (retries : Nat) :
    (cc = true → ce = true →
      downloadSim cached cc ce o retries = (Except.ok cached, 0, 0)) ∧
    (downloadSim cached cc ce o retries).2.1 ≤ retries + 1 ∧
    (∀ d, (downloadSim cached cc ce o retries).1 = Except.error d →
      (∀ j, j ≤ retries → ∃ e, o j = Except.error e) ∧
      (∃ e, o retries = Except.error e ∧ d = DlErr.downloadFailed e) ∧
      (downloadSim cached cc ce o retries).2.2 = 0 ∧
      (downloadSim cached cc ce o retries).2.1 = retries + 1) := by
  refine ⟨?_, ?_, ?_⟩
  · intro h1 h2
    simp [downloadSim, h1, h2]
  · by_cases hcc : (cc && ce) = true
    · simp [downloadSim, hcc]
    · simp only [downloadSim, if_neg hcc]
      have := downloadLoop_requests_le o cc (retries + 1) 0 none
      simpa using this
  · intro d hd
    by_cases hcc : (cc && ce) = true
    · simp [downloadSim, hcc] at hd
    · simp only [downloadSim, if_neg hcc] at hd ⊢
      obtain ⟨hw, hr, hall, hlast⟩ :=
        downloadLoop_fail o cc (retries + 1) 0 none d hd
      refine ⟨?_, ?_, hw, by omega⟩
      · intro j hj
        exact hall j (Nat.zero_le j) (by omega)
      · obtain ⟨e, he, hde⟩ := hlast (by omega)
        exact ⟨e, by simpa using he, hde⟩

/-- Witness for C4: with two retries and every attempt failing, the cache-hit
branch performs no request, and the miss branch performs at most three
requests, fails wrapping the last error, and writes nothing. -/
theorem c4_download_cache_retry_witness :
    downloadSim (E := Nat) () true true (fun i => Except.error i) 2 =
      (Except.ok (), 0, 0) ∧
    (downloadSim (E := Nat) () false false (fun i => Except.error i) 2).2.1 ≤ 3 ∧
    (downloadSim (E := Nat) () false false (fun i => Except.error i) 2).2.2 = 0 := by
  have h1 := c4_download_cache_retry Nat Unit () true true (fun i => Except.error i) 2
  have h2 := c4_download_cache_retry Nat Unit () false false (fun i => Except.error i) 2
  exact ⟨h1.1 rfl rfl, h2.2.1, (h2.2.2 (DlErr.downloadFailed 2) rfl).2.2.1⟩

/-! ## C10: output-directory check happens at the per-asset store step -/

/-- C10: with no output directory and a non-empty asset list, the first asset
is downloaded, background-removed and enhanced (in that order) before
`OutputNotConfigured` surfaces from the store step; nothing detects the
missing directory earlier, and the empty list succeeds without the error. -/
theorem c10_output_check_is_per_asset (Img : Type) (dl : ProductAsset → Img)
    (rb en : Img → Img) (a : ProductAsset) (rest : List ProductAsset) :
    processAssets dl rb en none (a :: rest) =
      ([PipeEvent.download a, PipeEvent.removeBg a, PipeEvent.enhance a],
       Except.error PipeErr.outputNotConfigured) ∧
    processAssets dl rb en none [] = ([], Except.ok []) :=
  ⟨rfl, rfl⟩

/-! ## C5: bare numeric input bypasses the resolution chain -/

/-- C5: an input whose stripped form is all digits is accepted verbatim as
the product id; the parsed record carries empty URLs, the chain-invoked flag
is false, and the result does not depend on the resolution chain at all. -/
theorem c5_numeric_input_bypasses_chain
    (chain chain2 : List Char → Except PErr ParsedProductInput)
    (input : List Char) (h : pyIsDigit (pyStrip input) = true) :
    fetchFront chain input =
      Except.ok (⟨pyStrip input, [], [], pyStrip input⟩, false) ∧
    fetchFront chain input = fetchFront chain2 input := by
  have hne : pyStrip input ≠ [] := by
    intro he
    rw [he] at h
    simp [pyIsDigit] at h
  constructor <;> simp [fetchFront, hne, h]

/-- Witness for C5 at the concrete input `" 12345 "`, with a chain that would
fail if invoked. -/
theorem c5_numeric_input_bypasses_chain_witness :
    fetchFront (fun _ => Except.error PErr.httpError) " 12345 ".data =
      Except.ok (⟨pyStrip " 12345 ".data, [], [], pyStrip " 12345 ".data⟩, false) ∧
    pyStrip " 12345 ".data = "12345".data :=
  ⟨(c5_numeric_input_bypasses_chain (fun _ => Except.error PErr.httpError)
      (fun _ => Except.error PErr.httpError) " 12345 ".data (by decide)).1,
   by decide⟩

end CodexDouyin

namespace CodexDouyin

/-! ## C9: credential resolution order -/

/-- C9: the effective cookie on outbound requests is the normalized call
argument when it is non-blank, else the instance value; the instance value is
the normalized constructor argument when one was given, else the
environment/dotenv default (so the environment is consulted exactly when no
constructor argument was given); blank values normalize away; without any
non-empty value no `Cookie` header is attached, and with one the header
carries it. -/
theorem c9_cookie_resolution :
    (∀ (instC : Option String) (ov v : String),
       normalizeCookie (some ov) = some v →
       effectiveCookies instC (some ov) = some v) ∧
    (∀ (instC : Option String) (ov : Option String),
       normalizeCookie ov = none → effectiveCookies instC ov = instC) ∧
    (∀ (c : String) (e1 e2 : Option String) (d1 d2 : Option (List (List Char))),
       initialCookies (some c) e1 d1 = normalizeCookie (some c) ∧
       initialCookies (some c) e1 d1 = initialCookies (some c) e2 d2) ∧
    (∀ (e : Option String) (d : Option (List (List Char))),
       initialCookies none e d = loadCookiesFromEnv e d) ∧
    (∀ (ua : String) (extra : List (String × String)) (instC ov : Option String),
       effectiveCookies instC ov = none →
       buildHeaders ua extra instC ov =
         extra.foldl (fun m p => dictSet m p.1 p.2) [("User-Agent", ua)]) ∧
    (∀ (ua r : String) (instC ov : Option String) (c : String),
       effectiveCookies instC ov = some c → c ≠ "" →
       (buildHeaders ua [] instC ov).lookup "Cookie" = some c ∧
       (buildHeaders ua [("Referer", r)] instC ov).lookup "Cookie" = some c) := by
  refine ⟨?_, ?_, ?_, ?_, ?_, ?_⟩
  · intro instC ov v h
    simp [effectiveCookies, h]
  · intro instC ov h
    simp [effectiveCookies, h]
  · intro c e1 e2 d1 d2
    exact ⟨rfl, rfl⟩
  · intro e d
    rfl
  · intro ua extra instC ov h
    simp [buildHeaders, h]
  · intro ua r instC ov c h hc
    constructor
    · simp [buildHeaders, h, hc, dictSet, List.lookup]
    · simp [buildHeaders, h, hc, dictSet, List.lookup]

/-- Witness for C9: call overrides instance after normalization; a blank call
falls through to the instance; a blank constructor argument blocks the
environment default; with no constructor argument the environment default is
used; and the `Cookie` header carries the effective value. -/
theorem c9_cookie_resolution_witness :
    effectiveCookies (some "inst") (some " call ") = some "call" ∧
    effectiveCookies (some "inst") (some "   ") = some "inst" ∧
    initialCookies (some "  ") (some "ENVC") (some []) = none ∧
    initialCookies none (some "ENVC") none = some "ENVC" ∧
    (buildHeaders "UA" [] (some "ck") none).lookup "Cookie" = some "ck" := by
  have h := c9_cookie_resolution
  refine ⟨?_, ?_, ?_, ?_, ?_⟩
  · exact h.1 (some "inst") " call " "call" (by decide)
  · exact h.2.1 (some "inst") (some "   ") (by decide)
  · rw [(h.2.2.1 "  " (some "ENVC") (some "ENVC") (some []) (some [])).1]
    decide
  · rw [h.2.2.2.1 (some "ENVC") none]
    decide
  · exact (h.2.2.2.2.2 "UA" "r" (some "ck") none "ck" (by decide) (by decide)).1

/-! ## C2: candidate image lists are or-selected per group, not concatenated -/

/-- C2 counterexample: with both `product.image` and `product.images` present
and non-empty, only the descriptors of `product.image` appear; the claim that
descriptors from both lists appear is false. -/
theorem c2_or_counterexample :
    (extractImages (Json.obj [("product",
        Json.obj [("image", Json.arr [Json.str "u1"]),
                  ("images", Json.arr [Json.str "u2"])])])).map ProductAsset.url
      = ["u1"] ∧
    "u2" ∉ (extractImages (Json.obj [("product",
        Json.obj [("image", Json.arr [Json.str "u1"]),
                  ("images", Json.arr [Json.str "u2"])])])).map ProductAsset.url := by
  decide

/-- C2 (amended): extraction concatenates, in order, up to three selected
lists: for the `product` group `product.image` if truthy else
`product.images`; for the `data` group `data.images` if truthy else
`data.image_list`; and the top-level `image_list`; when both keys of a group
are present and non-empty only the first key of the group contributes. -/
theorem c2_group_selection (j1 j2 j3 j4 j5 : Json) :
    candidateLists (mkPayload j1 j2 j3 j4 j5) = [pyOr j1 j2, pyOr j3 j4, j5] ∧
    (pyTruthy j1 = true → pyOr j1 j2 = j1) ∧
    (pyTruthy j1 = false → pyOr j1 j2 = j2) ∧
    extractImages (mkPayload j1 j2 j3 j4 j5) =
      ([pyOr j1 j2, pyOr j3 j4, j5].map
        (fun j => if pyTruthy j then extractFromList (listItems j) else [])).flatten ∧
    (extractImages (mkPayload (Json.arr [Json.str "a"]) Json.null
        (Json.arr [Json.str "b"]) Json.null
        (Json.arr [Json.str "c"]))).map ProductAsset.url = ["a", "b", "c"] := by
  refine ⟨rfl, ?_, ?_, rfl, by decide⟩
  · intro h
    simp [pyOr, h]
  · intro h
    simp [pyOr, h]

/-- Witness for C2 (amended) at concrete group values. -/
theorem c2_group_selection_witness :
    pyOr (Json.arr [Json.str "u1"]) (Json.arr [Json.str "u2"]) = Json.arr [Json.str "u1"] ∧
    pyOr Json.null (Json.arr [Json.str "u2"]) = Json.arr [Json.str "u2"] :=
  ⟨(c2_group_selection (Json.arr [Json.str "u1"]) (Json.arr [Json.str "u2"])
      Json.null Json.null Json.null).2.1 rfl,
   (c2_group_selection Json.null (Json.arr [Json.str "u2"])
      Json.null Json.null Json.null).2.2.1 rfl⟩

end CodexDouyin

namespace CodexDouyin

/-! ## C7: per-element descriptor parsing -/

/-- C7: a bare non-empty string is taken as the URL; an object takes its URL
from `url`, `origin_url`, `image_url`, or the first string entry of
`url_list`, in that priority order; an element with no truthy URL is skipped
(extraction is total, so skipping never fails it); the descriptor id defaults
to the positional index when the source id is absent or falsy; and on a
concrete list with a skipped element the surviving descriptors keep source
order. -/
theorem c7_item_parsing :
    (∀ (i : Nat) (s : String), s ≠ "" →
       parseItem i (Json.str s) = some ⟨toString i, s, none, none, none⟩) ∧
    (∀ (item : Json), pyTruthy (jGet item "url") = true →
       itemUrlJson item = jGet item "url") ∧
    (∀ (item : Json), pyTruthy (jGet item "url") = false →
       pyTruthy (jGet item "origin_url") = true →
       itemUrlJson item = jGet item "origin_url") ∧
    (∀ (item : Json), pyTruthy (jGet item "url") = false →
       pyTruthy (jGet item "origin_url") = false →
       pyTruthy (jGet item "image_url") = true →
       itemUrlJson item = jGet item "image_url") ∧
    (∀ (item : Json), pyTruthy (jGet item "url") = false →
       pyTruthy (jGet item "origin_url") = false →
       pyTruthy (jGet item "image_url") = false →
       jHas item "url_list" = true → pyTruthy (jGet item "url_list") = true →
       itemUrlJson item =
         (match firstStringEntry (jGet item "url_list") with
          | some s => Json.str s
          | none => Json.null)) ∧
    (∀ (i : Nat) (kvs : List (String × Json)),
       pyTruthy (itemUrlJson (Json.obj kvs)) = false →
       parseItem i (Json.obj kvs) = none) ∧
    (∀ (i : Nat) (kvs : List (String × Json)),
       pyTruthy (itemUrlJson (Json.obj kvs)) = true →
       pyTruthy (jGet (Json.obj kvs) "id") = false →
       ∃ a, parseItem i (Json.obj kvs) = some a ∧ a.id = toString i) ∧
    (extractFromList
        [Json.obj [("id", Json.str "1"), ("url", Json.str "https://e/1.png")],
         Json.num 7,
         Json.obj [("id", Json.str "2"),
                   ("url_list", Json.arr [Json.num 0, Json.str "https://e/2a.png",
                                          Json.str "https://e/2b.png"])]]).map
        (fun a => (a.id, a.url))
      = [("1", "https://e/1.png"), ("2", "https://e/2a.png")] := by
  refine ⟨?_, ?_, ?_, ?_, ?_, ?_, ?_, by decide⟩
  · intro i s h
    simp [parseItem, h]
  · intro item h
    simp [itemUrlJson, pyOr, h]
  · intro item h1 h2
    simp [itemUrlJson, pyOr, h1, h2]
  · intro item h1 h2 h3
    simp [itemUrlJson, pyOr, h1, h2, h3]
  · intro item h1 h2 h3 h4 h5
    simp [itemUrlJson, pyOr, h1, h2, h3, h4, h5]
  · intro i kvs h
    simp [parseItem, h]
  · intro i kvs h1 h2
    refine ⟨⟨toString i, pyStrOf (itemUrlJson (Json.obj kvs)),
             intOpt (jGet (Json.obj kvs) "width"),
             intOpt (jGet (Json.obj kvs) "height"),
             strOpt (pyOr (jGet (Json.obj kvs) "format")
                           (jGet (Json.obj kvs) "file_type"))⟩, ?_, rfl⟩
    simp [parseItem, h1, h2]

/-- Witness for C7 at concrete items exercising each URL source and the
skip and id-default behaviors. -/
theorem c7_item_parsing_witness :
    parseItem 3 (Json.str "u") = some ⟨toString 3, "u", none, none, none⟩ ∧
    itemUrlJson (Json.obj [("url", Json.str "x"), ("origin_url", Json.str "y")])
      = Json.str "x" ∧
    itemUrlJson (Json.obj [("origin_url", Json.str "y")]) = Json.str "y" ∧
    itemUrlJson (Json.obj [("image_url", Json.str "z")]) = Json.str "z" ∧
    itemUrlJson (Json.obj [("url_list", Json.arr [Json.str "w"])]) = Json.str "w" ∧
    parseItem 0 (Json.obj [("url", Json.str "")]) = none ∧
    (∃ a, parseItem 4 (Json.obj [("url", Json.str "q")]) = some a ∧
       a.id = toString 4) := by
  have h := c7_item_parsing
  refine ⟨?_, ?_, ?_, ?_, ?_, ?_, ?_⟩
  · exact h.1 3 "u" (by decide)
  · exact h.2.1 _ (by decide)
  · exact h.2.2.1 _ (by decide) (by decide)
  · exact h.2.2.2.1 _ (by decide) (by decide) (by decide)
  · rw [h.2.2.2.2.1 _ (by decide) (by decide) (by decide) (by decide) (by decide)]
    rfl
  · exact h.2.2.2.2.2.1 0 _ (by decide)
  · exact h.2.2.2.2.2.2.1 4 _ (by decide) (by decide)

end CodexDouyin

namespace CodexDouyin

/-! ## C1: numeric ids in query parameters and path patterns -/

/-- C1: whenever the query step finds a numeric id the Product Identifier
returns exactly it (strategy `query`, no network fetch); whenever the query
step misses and a path pattern matches, the Identifier returns that capture
(strategy `url`); the three example URLs of the claim resolve to their
embedded ids for every fetch oracle, and with both a path id and a query id
present the query step wins, with `product_id` preferred over `id`. -/
theorem c1_product_id_query_then_path :
    (∀ (fetch : List Char → Except PErr FetchResult) (url pid : List Char),
       extractProductIdFromQuery url = some pid →
       determineProductId fetch url = Except.ok (pid, "query", url)) ∧
    (∀ (fetch : List Char → Except PErr FetchResult) (url pid : List Char),
       extractProductIdFromQuery url = none →
       extractProductId url = some pid →
       determineProductId fetch url = Except.ok (pid, "url", url)) ∧
    (∀ fetch,
       determineProductId fetch "https://host/product/1234567890123456789?foo=bar".data =
         Except.ok ("1234567890123456789".data, "url",
           "https://host/product/1234567890123456789?foo=bar".data)) ∧
    (∀ fetch,
       determineProductId fetch "https://host?product_id=998877".data =
         Except.ok ("998877".data, "query", "https://host?product_id=998877".data)) ∧
    (∀ fetch,
       determineProductId fetch "https://host/detail?goods_id=123456".data =
         Except.ok ("123456".data, "query", "https://host/detail?goods_id=123456".data)) ∧
    (∀ fetch,
       determineProductId fetch "https://host/item/111?goods_id=222".data =
         Except.ok ("222".data, "query", "https://host/item/111?goods_id=222".data)) ∧
    (∀ fetch,
       determineProductId fetch "https://host?id=9&product_id=7".data =
         Except.ok ("7".data, "query", "https://host?id=9&product_id=7".data)) := by
  refine ⟨?_, ?_, fun _ => rfl, fun _ => rfl, fun _ => rfl, fun _ => rfl, fun _ => rfl⟩
  · intro fetch url pid h
    simp [determineProductId, h]
  · intro fetch url pid h1 h2
    simp [determineProductId, h1, h2]

/-- Witness for C1: the query and path steps applied at concrete URLs through
the general parts of the theorem. -/
theorem c1_product_id_query_then_path_witness :
    determineProductId (fun _ => Except.error PErr.httpError)
      "https://host?product_id=555".data =
      Except.ok ("555".data, "query", "https://host?product_id=555".data) ∧
    determineProductId (fun _ => Except.error PErr.httpError)
      "https://host/goods/42".data =
      Except.ok ("42".data, "url", "https://host/goods/42".data) :=
  ⟨c1_product_id_query_then_path.1 (fun _ => Except.error PErr.httpError)
     "https://host?product_id=555".data "555".data (by decide),
   c1_product_id_query_then_path.2.1 (fun _ => Except.error PErr.httpError)
     "https://host/goods/42".data "42".data (by decide) (by decide)⟩

/-! ## C8: deterministic cache path layout -/

set_option maxRecDepth 8000 in
/-- C8: the cache path is a pure function of the asset id, URL and declared
format (equal values give equal paths); with a cache directory it is
`dir/<id>_<sha1hex(url)>.<ext>` where the digest hashes the UTF-8 bytes of
the URL and `<ext>` is the declared or default format, lower-cased, with any
part after `?` stripped; without a cache directory there is no path.  The
concrete cases exercise the digest (checked against the standard SHA-1 test
vector), the lower-casing, the `?`-stripping, and the `png` default. -/
theorem c8_cache_path_layout :
    (∀ (d : String) (a : ProductAsset),
       resolveCachePath (some d) a =
         some (d ++ "/" ++ a.id ++ "_" ++ sha1HexOfString a.url ++ "." ++
               extOf a.format)) ∧
    (∀ (d : Option String) (a b : ProductAsset), a.id = b.id → a.url = b.url →
       a.format = b.format → resolveCachePath d a = resolveCachePath d b) ∧
    (∀ a, resolveCachePath none a = none) ∧
    sha1HexOfString "abc" = "a9993e364706816aba3e25717850c26c9cd0d89d" ∧
    resolveCachePath (some "cache")
        ⟨"7", "https://example.com/a.png", none, none, some "JPEG?x=1"⟩ =
      some "cache/7_b86dafa63bceefac631caa7d6745c8a343bc0c4a.jpeg" ∧
    resolveCachePath (some "cache")
        ⟨"1", "https://example.com/a.png", none, none, none⟩ =
      some "cache/1_b86dafa63bceefac631caa7d6745c8a343bc0c4a.png" := by
  refine ⟨fun d a => rfl, ?_, fun a => rfl, ?_, ?_, ?_⟩
  · intro d a b h1 h2 h3
    cases d with
    | none => rfl
    | some d => simp [resolveCachePath, h1, h2, h3]
  · decide
  · decide
  · decide

/-- Witness for C8: two assets equal in id, URL and format but with different
dimensions map to the same cache path. -/
theorem c8_cache_path_layout_witness :
    resolveCachePath (some "c") ⟨"1", "u", some 2, none, none⟩ =
      resolveCachePath (some "c") ⟨"1", "u", none, some 3, none⟩ :=
  c8_cache_path_layout.2.1 (some "c") ⟨"1", "u", some 2, none, none⟩
    ⟨"1", "u", none, some 3, none⟩ rfl rfl rfl

end CodexDouyin

namespace CodexDouyin

/-! ## Supporting lemmas for link normalization -/

theorem dropWhile_append_single (p : Char → Bool) (x : Char) (h : p x = false)
    (xs : List Char) :
    List.dropWhile p (xs ++ [x]) = List.dropWhile p xs ++ [x] := by
  induction xs with
  | nil => simp [List.dropWhile, h]
  | cons a as ih =>
    by_cases ha : p a = true
    · simp [List.dropWhile, ha, ih]
    · simp [List.dropWhile, ha]

theorem rstripP_cons (p : Char → Bool) (c : Char) (t : List Char)
    (h : p c = false) : rstripP p (c :: t) = c :: rstripP p t := by
  unfold rstripP
  rw [List.reverse_cons, dropWhile_append_single p c h, List.reverse_append]
  simp

theorem stripP_cons (p : Char → Bool) (c : Char) (t : List Char)
    (h : p c = false) : stripP p (c :: t) = c :: rstripP p t := by
  unfold stripP lstripP
  rw [List.dropWhile_cons, if_neg (by simp [h])]
  exact rstripP_cons p c t h

theorem toLower_not_memB (s : List Char) (c : Char) (h : Char.toLower c = 'h')
    (hs : ¬ ('h' ∈ s.map Char.toLower)) : memB s c = false := by
  rw [memB, decide_eq_false_iff_not]
  intro hc
  exact hs (h ▸ List.mem_map_of_mem Char.toLower hc)

theorem isHttpMatchAt_head (c : Char) (rest : List Char)
    (h : isHttpMatchAt (c :: rest) = true) : Char.toLower c = 'h' := by
  unfold isHttpMatchAt at h
  rw [Bool.or_eq_true] at h
  rcases h with h | h
  · rw [Bool.and_eq_true] at h
    obtain ⟨h1, _⟩ := h
    have e : List.isPrefixOf httpsPrefix ((c :: rest).map Char.toLower) =
        (('h' == Char.toLower c) &&
         List.isPrefixOf "ttps://".data (rest.map Char.toLower)) := rfl
    rw [e, Bool.and_eq_true] at h1
    exact (eq_of_beq h1.1).symm
  · rw [Bool.and_eq_true] at h
    obtain ⟨h1, _⟩ := h
    have e : List.isPrefixOf httpPrefix ((c :: rest).map Char.toLower) =
        (('h' == Char.toLower c) &&
         List.isPrefixOf "ttp://".data (rest.map Char.toLower)) := rfl
    rw [e, Bool.and_eq_true] at h1
    exact (eq_of_beq h1.1).symm

theorem findUrl_head : ∀ (l m : List Char), findUrl l = some m →
    ∃ c t, m = c :: t ∧ Char.toLower c = 'h' := by
  intro l
  induction l with
  | nil => intro m h; simp [findUrl] at h
  | cons c rest ih =>
    intro m h
    by_cases hm : isHttpMatchAt (c :: rest) = true
    · have hlow := isHttpMatchAt_head c rest hm
      have hws : pyWhitespace c = false :=
        toLower_not_memB wsChars c hlow (by decide)
      have ht : (c :: rest).takeWhile notWs = c :: rest.takeWhile notWs := by
        simp [List.takeWhile, notWs, hws]
      rw [show findUrl (c :: rest) =
            (if isHttpMatchAt (c :: rest) then some ((c :: rest).takeWhile notWs)
             else findUrl rest) from rfl,
          if_pos hm, ht] at h
      exact ⟨c, rest.takeWhile notWs, (Option.some.inj h).symm, hlow⟩
    · rw [show findUrl (c :: rest) =
            (if isHttpMatchAt (c :: rest) then some ((c :: rest).takeWhile notWs)
             else findUrl rest) from rfl,
          if_neg hm] at h
      exact ih m h

theorem normalizeUrl_head (c : Char) (t : List Char)
    (h : Char.toLower c = 'h') : ∃ t2, normalizeUrl (c :: t) = c :: t2 := by
  have hws : pyWhitespace c = false := toLower_not_memB wsChars c h (by decide)
  have hq : memB quoteChars c = false := toLower_not_memB quoteChars c h (by decide)
  have hp : memB trailingPunct c = false :=
    toLower_not_memB trailingPunct c h (by decide)
  unfold normalizeUrl pyStrip stripChars rstripChars
  rw [stripP_cons _ _ _ hws, stripP_cons _ _ _ hq, rstripP_cons _ _ _ hp]
  exact ⟨_, rfl⟩

/-! ## C6: InvalidInput exactly for empty input or missing link -/

/-- C6: validation fails exactly when the stripped input is empty or no
http/https substring is found; the empty case carries the "non-empty string"
message and the no-link case the "link" message, which are distinct; every
other input proceeds past validation with the normalized URL (in particular
the normalize-failure branch of the source is unreachable, because a found
match starts with `http` and normalization never strips its head). -/
theorem c6_invalid_input_iff (raw : List Char) :
    ((∃ e, parseValidate raw = Except.error e) ↔
      (pyStrip raw = [] ∨ findUrl raw = none)) ∧
    (pyStrip raw = [] →
      parseValidate raw = Except.error (PErr.invalidInput msgNonEmpty)) ∧
    (pyStrip raw ≠ [] → findUrl raw = none →
      parseValidate raw = Except.error (PErr.invalidInput msgNoLink)) ∧
    (∀ m, pyStrip raw ≠ [] → findUrl raw = some m →
      parseValidate raw = Except.ok (normalizeUrl m)) ∧
    msgNonEmpty ≠ msgNoLink ∧
    containsSub msgNonEmpty "non-empty string" = true ∧
    containsSub msgNoLink "link" = true := by
  have hok : ∀ m, findUrl raw = some m → normalizeUrl m ≠ [] := by
    intro m hm
    obtain ⟨c, t, rfl, hlow⟩ := findUrl_head raw m hm
    obtain ⟨t2, ht2⟩ := normalizeUrl_head c t hlow
    rw [ht2]
    simp
  refine ⟨?_, ?_, ?_, ?_, by decide, by decide, by decide⟩
  · constructor
    · rintro ⟨e, he⟩
      by_cases h1 : pyStrip raw = []
      · exact Or.inl h1
      · cases h2 : findUrl raw with
        | none => exact Or.inr rfl
        | some m =>
          exfalso
          have h3 := hok m h2
          simp [parseValidate, h1, h2, h3] at he
    · intro h
      rcases h with h1 | h2
      · exact ⟨PErr.invalidInput msgNonEmpty, by simp [parseValidate, h1]⟩
      · by_cases h1 : pyStrip raw = []
        · exact ⟨PErr.invalidInput msgNonEmpty, by simp [parseValidate, h1]⟩
        · exact ⟨PErr.invalidInput msgNoLink, by simp [parseValidate, h1, h2]⟩
  · intro h1
    simp [parseValidate, h1]
  · intro h1 h2
    simp [parseValidate, h1, h2]
  · intro m h1 h2
    simp [parseValidate, h1, h2, hok m h2]

/-- Witness for C6: a whitespace-only input, an input without a link, and an
input with a link, each through the general theorem. -/
theorem c6_invalid_input_iff_witness :
    parseValidate "   ".data = Except.error (PErr.invalidInput msgNonEmpty) ∧
    parseValidate "no link here".data = Except.error (PErr.invalidInput msgNoLink) ∧
    parseValidate "see https://a.b/c now".data =
      Except.ok (normalizeUrl "https://a.b/c".data) := by
  refine ⟨?_, ?_, ?_⟩
  · exact (c6_invalid_input_iff "   ".data).2.1 (by decide)
  · exact (c6_invalid_input_iff "no link here".data).2.2.1 (by decide) (by decide)
  · exact (c6_invalid_input_iff "see https://a.b/c now".data).2.2.2.1
      "https://a.b/c".data (by decide) (by decide)

end CodexDouyin
